import Mathlib

/-!
# Verification of the KappaRecruit ATS multi-tenancy layer

A shallow embedding of the data-access layer of the `ats-api` service
(`app/models.py`, `app/crud.py`, `app/security.py` and the request handlers
under `app/api/`), together with theorems settling the frozen claims about
its specification.

The relational store is modelled as a record of tables (lists of rows, in
insertion order).  SQLAlchemy queries are translated structurally:
`filter` + `first()` becomes `List.find?`, an `EXISTS`-style join becomes
`List.any` over the joined table with the relationship's join condition,
`.all()` becomes `List.filter`.  Nullable foreign-key columns that the
application actually writes `NULL` into (`users.company_id`,
`candidates.created_by_user_id`, `resumes.file_location`) are modelled as
`Option`; columns that every code path populates are plain values.
Mutating operations return the new database state explicitly.
-/

namespace Ats

/-- Row of `companies` (models.Company). -/

structure Company where
  company_id : Nat
  name : String
deriving Repr, DecidableEq

/-- Row of `roles` (models.Role).  Note: the model declares only `role_id`
and `name`; it has no `permissions` column. -/

structure Role where
  role_id : Nat
  name : String
deriving Repr, DecidableEq

/-- Row of `users` (models.User).  `company_id` is nullable: candidate
self-service accounts are created with `company_id=None`. -/

structure User where
  user_id : Nat
  company_id : Option Nat
  email : String
  role_id : Nat
deriving Repr, DecidableEq

/-- Row of `jobs` (models.Job).  The JSON `data` payload is irrelevant to
the access-control claims and omitted. -/

structure Job where
  job_id : Nat
  company_id : Nat
deriving Repr, DecidableEq

/-- Row of `candidates` (models.Candidate).  `created_by_user_id` is
nullable (self-registered candidates). Profile columns other than `email`
are irrelevant to the claims and omitted. -/

structure Candidate where
  candidate_id : Nat
  email : String
  created_by_user_id : Option Nat
deriving Repr, DecidableEq

/-- Row of `resumes` (models.Resume).  `file_location` is nullable. -/

structure Resume where
  resume_id : Nat
  candidate_id : Nat
  file_location : Option String
deriving Repr, DecidableEq

/-- Row of `applications` (models.Application). -/

structure Application where
  application_id : Nat
  job_id : Nat
  candidate_id : Nat
  source : Option String
deriving Repr, DecidableEq

/-- models.JobStatus. -/

inductive JobStatus where
  | draft | opened | paused | filled | closed
deriving Repr, DecidableEq

/-- models.ApplicationStatus. -/

inductive ApplicationStatus where
  | applied | screening | interview | offer | hired | rejected
deriving Repr, DecidableEq

/-- models.InterviewType. -/

inductive InterviewType where
  | phone | video | onsite
deriving Repr, DecidableEq

/-- Row of `job_status_events` (models.JobStatusEvent).  Timestamps are
abstract `Nat`s. -/

structure JobStatusEvent where
  event_id : Nat
  job_id : Nat
  status : JobStatus
  changed_by_user_id : Nat
  reason : Option String
  created_at : Nat
deriving Repr, DecidableEq

/-- Row of `application_status_events` (models.ApplicationStatusEvent). -/

structure ApplicationStatusEvent where
  event_id : Nat
  application_id : Nat
  status : ApplicationStatus
  changed_by_user_id : Nat
  reason : Option String
  next_action_date : Option Nat
  created_at : Nat
deriving Repr, DecidableEq

/-- Row of `interviews` (models.Interview). -/

structure Interview where
  interview_id : Nat
  application_id : Nat
  scheduled_at : Nat
  duration_minutes : Nat
  interview_type : InterviewType
deriving Repr, DecidableEq

/-- Row of `interviewers` (models.Interviewer). -/

structure Interviewer where
  interviewer_id : Nat
  interview_id : Nat
  user_id : Nat
deriving Repr, DecidableEq

/-- The relational store: one list per table, rows in insertion order. -/

structure DB where
  companies : List Company
  roles : List Role
  users : List User
  jobs : List Job
  candidates : List Candidate
  applications : List Application
  resumes : List Resume
  interviews : List Interview
  interviewers : List Interviewer
  job_status_events : List JobStatusEvent
  application_status_events : List ApplicationStatusEvent
deriving Repr, DecidableEq

/-- The empty database. -/

def DB.empty : DB := ⟨[], [], [], [], [], [], [], [], [], [], []⟩

/-! ## crud.py — multi-tenancy helper -/

/-- crud._is_candidate_in_company.  Branch 1 joins
`candidates → applications → jobs` (relationship join conditions
`applications.candidate_id = candidates.candidate_id` and
`jobs.job_id = applications.job_id`) and filters on the candidate id and
`jobs.company_id == company_id`; branch 2 joins `candidates → users` on
`candidates.created_by_user_id == users.user_id` and filters on
`users.company_id == company_id`.  The function returns `True` as soon as
branch 1 matches, otherwise the result of branch 2. -/

def _is_candidate_in_company (db : DB) (candidate_id company_id : Nat) : Bool :=
  let is_via_app :=
    db.candidates.any fun c =>
      c.candidate_id == candidate_id &&
      db.applications.any fun a =>
        a.candidate_id == c.candidate_id &&
        db.jobs.any fun j => j.job_id == a.job_id && j.company_id == company_id
  if is_via_app then true
  else
    db.candidates.any fun c =>
      c.candidate_id == candidate_id &&
      db.users.any fun u =>
        c.created_by_user_id == some u.user_id && u.company_id == some company_id

/-! ## crud.py — scoped lookups -/

/-- crud.get_user_by_email: first user with the given email. -/

def get_user_by_email (db : DB) (email : String) : Option User :=
  db.users.find? fun u => u.email == email

/-- crud.get_job: equality filter on both `job_id` and `company_id`. -/

def get_job (db : DB) (job_id company_id : Nat) : Option Job :=
  db.jobs.find? fun j => j.job_id == job_id && j.company_id == company_id

/-- crud.get_candidate: check `_is_candidate_in_company` first, then fetch
the candidate row by id alone. -/

def get_candidate (db : DB) (candidate_id company_id : Nat) : Option Candidate :=
  if _is_candidate_in_company db candidate_id company_id then
    db.candidates.find? fun c => c.candidate_id == candidate_id
  else none

/-- The join predicate of crud.get_candidates: the candidate has an
application to a job of the company. -/

def appJoinReachable (db : DB) (company_id : Nat) (c : Candidate) : Bool :=
  db.applications.any fun a =>
    a.candidate_id == c.candidate_id &&
    db.jobs.any fun j => j.job_id == a.job_id && j.company_id == company_id

/-- crud.get_candidates: DISTINCT candidates joined through
`applications → jobs`, filtered on `jobs.company_id == company_id`, with
offset/limit pagination.  Only the application-join branch appears; the
`created_by` branch is absent. -/

def get_candidates (db : DB) (company_id skip limit : Nat) : List Candidate :=
  (((db.candidates.filter (appJoinReachable db company_id)).drop skip).take limit)

/-- crud.get_candidate_by_email: the query filters on the email only; the
`company_id` argument is accepted and ignored. -/

def get_candidate_by_email (db : DB) (email : String) (company_id : Option Nat) :
    Option Candidate :=
  db.candidates.find? fun c => c.email == email

/-- crud.get_application: join `applications → jobs`, filter on the
application id and `jobs.company_id == company_id`. -/

def get_application (db : DB) (application_id company_id : Nat) : Option Application :=
  db.applications.find? fun a =>
    a.application_id == application_id &&
    db.jobs.any fun j => j.job_id == a.job_id && j.company_id == company_id

/-- crud.get_interview: two-hop join `interviews → applications → jobs`,
filter on the interview id and `jobs.company_id == company_id`. -/

def get_interview (db : DB) (interview_id company_id : Nat) : Option Interview :=
  db.interviews.find? fun i =>
    i.interview_id == interview_id &&
    db.applications.any fun a =>
      a.application_id == i.application_id &&
      db.jobs.any fun j => j.job_id == a.job_id && j.company_id == company_id

/-- crud.get_resume: fetch by id alone, then gate on
`_is_candidate_in_company` for the resume's candidate. -/

def get_resume (db : DB) (resume_id company_id : Nat) : Option Resume :=
  match db.resumes.find? fun r => r.resume_id == resume_id with
  | some r =>
      if _is_candidate_in_company db r.candidate_id company_id then some r else none
  | none => none

/-! ## Specification-side predicates for candidate accessibility -/

/-- Spec branch (a): the candidate has at least one Application to a Job
owned by the company. -/

def HasApplicationToCompany (db : DB) (candidate_id company_id : Nat) : Prop :=
  ∃ c ∈ db.candidates, c.candidate_id = candidate_id ∧
    ∃ a ∈ db.applications, a.candidate_id = candidate_id ∧
      ∃ j ∈ db.jobs, j.job_id = a.job_id ∧ j.company_id = company_id

/-- Spec branch (b): the candidate's `created_by` reference resolves to a
User belonging to the company. -/

def CreatedByCompanyUser (db : DB) (candidate_id company_id : Nat) : Prop :=
  ∃ c ∈ db.candidates, c.candidate_id = candidate_id ∧
    ∃ u ∈ db.users, c.created_by_user_id = some u.user_id ∧
      u.company_id = some company_id

instance (db : DB) (cid comp : Nat) : Decidable (HasApplicationToCompany db cid comp) := by
  unfold HasApplicationToCompany; infer_instance

instance (db : DB) (cid comp : Nat) : Decidable (CreatedByCompanyUser db cid comp) := by
  unfold CreatedByCompanyUser; infer_instance

/-- Sample database: candidate 7 applied to job 3 of company 1 and was
created by user 9 of company 2. -/

def exDb1 : DB :=
  { DB.empty with
    users := [⟨9, some 2, "u@b.example", 1⟩],
    jobs := [⟨3, 1⟩],
    candidates := [⟨7, "c@x.example", some 9⟩],
    applications := [⟨11, 3, 7, none⟩] }

/-- Sample database: candidate 7 was created by user 9 of company 1 but has
no applications, so it is reachable only through the created-by branch. -/

def exDb2 : DB :=
  { DB.empty with
    users := [⟨9, some 1, "u@a.example", 1⟩],
    jobs := [⟨3, 1⟩],
    candidates := [⟨7, "c@x.example", some 9⟩] }

/-! ## api/ — request handlers for scoped single-entity lookups -/

/-- fastapi.HTTPException, reduced to status code and detail. -/

structure HTTPException where
  status_code : Nat
  detail : String
deriving Repr, DecidableEq

/-- api/jobs.py read_job: absence becomes 404 "Job not found". -/

def read_job (db : DB) (job_id company_id : Nat) : Except HTTPException Job :=
  match get_job db job_id company_id with
  | some j => .ok j
  | none => .error ⟨404, "Job not found"⟩

/-- api/candidates.py read_candidate: absence becomes 404 "Candidate not found". -/

def read_candidate (db : DB) (candidate_id company_id : Nat) :
    Except HTTPException Candidate :=
  match get_candidate db candidate_id company_id with
  | some c => .ok c
  | none => .error ⟨404, "Candidate not found"⟩

/-- api/applications.py read_application: absence becomes 404 "Application not found". -/

def read_application (db : DB) (application_id company_id : Nat) :
    Except HTTPException Application :=
  match get_application db application_id company_id with
  | some a => .ok a
  | none => .error ⟨404, "Application not found"⟩

/-- api/interviews.py read_interview: absence becomes 404 "Interview not found". -/

def read_interview (db : DB) (interview_id company_id : Nat) :
    Except HTTPException Interview :=
  match get_interview db interview_id company_id with
  | some i => .ok i
  | none => .error ⟨404, "Interview not found"⟩

/-- api/resumes.py read_resume: absence becomes 404 "Resume not found". -/

def read_resume (db : DB) (resume_id company_id : Nat) :
    Except HTTPException Resume :=
  match get_resume db resume_id company_id with
  | some r => .ok r
  | none => .error ⟨404, "Resume not found"⟩

/-- Sample database for C3: job 5, application 6, interview 7, resume 8 and
candidate 9 all belong to company 2's world; company 1 is the caller. -/

def exDb3 : DB :=
  { DB.empty with
    users := [⟨1, some 2, "u@b.example", 1⟩],
    jobs := [⟨5, 2⟩],
    candidates := [⟨9, "c@x.example", some 1⟩],
    applications := [⟨6, 5, 9, none⟩],
    resumes := [⟨8, 9, none⟩],
    interviews := [⟨7, 6, 0, 30, InterviewType.phone⟩] }

/-! ## security.py — get_current_user -/

/-- The 401 raised by security.get_current_user on any validation failure. -/

def credentials_exception : HTTPException :=
  ⟨401, "Could not validate credentials"⟩

/-- security.get_current_user, for a token whose signature and expiry have
already been accepted by `jwt.decode` (a `JWTError` — bad signature or
expired timestamp — raises the same 401 before this logic runs and is
external to the embedding).  The decoded payload carries the subject email
(`sub`, absent ⇒ 401) and the tenant claim (`company_id`, nullable).  The
user is re-fetched by email and rejected unless its current `company_id`
equals the token's tenant claim. -/

def get_current_user (db : DB) (payload_sub : Option String)
    (payload_company_id : Option Nat) : Except HTTPException User :=
  match payload_sub with
  | none => .error credentials_exception
  | some email =>
    match get_user_by_email db email with
    | none => .error credentials_exception
    | some user =>
        if user.company_id == payload_company_id then .ok user
        else .error credentials_exception

/-- Sample database for C4: one company user and one candidate-principal
user (null company). -/

def exDb4 : DB :=
  { DB.empty with
    users := [⟨1, some 1, "a@co.example", 1⟩, ⟨2, none, "cand@self.example", 2⟩] }

/-! ## security.py — RoleChecker

`RoleChecker.__call__` first rejects (403) when `allowed_roles` is truthy
and the principal's role name is not in it.  It then evaluates
`user.role.permissions` whenever `required_permissions` is truthy — but
`models.Role` declares no `permissions` column (only `role_id` and
`name`), so that attribute access raises `AttributeError` (an unhandled
exception, surfaced as a 500), not a 403 and not a pass.  The schema layer
(`schemas.RoleBase.permissions`), the role CRUD tests
(`tests/test_roles.py`) and the fixtures (`tests/conftest.py`, which
constructs `models.Role(name=..., permissions=[...])`) all expect the
column to exist. -/

/-- Python truthiness of an optional list (`None` and `[]` are falsy). -/

def pyTruthy : Option (List String) → Bool
  | none => false
  | some l => !l.isEmpty

/-- security.RoleChecker: the configuration captured by `__init__`. -/

structure RoleChecker where
  allowed_roles : Option (List String)
  required_permissions : Option (List String)
deriving Repr, DecidableEq

/-- Outcome of the gate: pass, 403, or the AttributeError raised by
`user.role.permissions` on a Role model that has no such column. -/

inductive GateOutcome where
  | ok (user : User)
  | forbidden (detail : String)
  | attributeError
deriving Repr, DecidableEq

/-- security.RoleChecker.__call__ against the models.Role row of the
authenticated user's role. -/

def RoleChecker.call (rc : RoleChecker) (user : User) (role : Role) : GateOutcome :=
  if pyTruthy rc.allowed_roles && !((rc.allowed_roles.getD []).contains role.name) then
    .forbidden "Operation not permitted for this role"
  else if pyTruthy rc.required_permissions then
    .attributeError
  else
    .ok user

/-! ## api/resumes.py — download_resume

Filesystem paths are modelled as lists of segments (an absolute path
`/a/b` is `["a", "b"]`).  `os.path.basename` keeps the characters after
the last `/`; `os.path.abspath` normalises a segment list left to right,
dropping empty and `"."` segments and letting `".."` pop the previous
segment; `str.startswith` is character-list prefix of the rendered
strings, exactly as Python compares them. -/

/-- Characters of `os.path.basename`: accumulate, resetting at each slash. -/

def basenameAux : List Char → List Char → List Char
  | [], acc => acc
  | c :: cs, acc => basenameAux cs (if c = '/' then [] else acc ++ [c])

/-- os.path.basename. -/

def basename (p : String) : String := String.mk (basenameAux p.data [])

/-- One step of `os.path.abspath` normalisation. -/

def normStep (acc : List String) (seg : String) : List String :=
  if seg = "" ∨ seg = "." then acc
  else if seg = ".." then acc.dropLast
  else acc ++ [seg]

/-- `os.path.abspath` normalisation of an absolute segment list. -/

def normalize (segs : List String) : List String := segs.foldl normStep []

/-- Render an absolute segment list back to its character string
(`["a","b"]` ↦ `"/a/b"`). -/

def renderSegs : List String → List Char
  | [] => []
  | s :: rest => '/' :: (s.data ++ renderSegs rest)

/-- Python `str.startswith`, on rendered paths. -/

def pyStartswith (s p : List Char) : Bool := p.isPrefixOf s

/-- `os.path.abspath(os.path.join(os.path.abspath("uploads"),
os.path.basename(fl)))` relative to the working directory `cwd`. -/

def resolved_file_path (cwd : List String) (fl : String) : List String :=
  normalize (normalize (cwd ++ ["uploads"]) ++ [basename fl])

/-- Outcome of the download endpoint: an HTTP error or a served file. -/

inductive DlOutcome where
  | notFound (detail : String)
  | forbidden (detail : String)
  | file (path : List String)
deriving Repr, DecidableEq

/-- The path checks of api/resumes.py download_resume, for a resume whose
`file_location` is the (possibly empty) string `fl`: empty is falsy (404),
then the `startswith` containment check (403), then `os.path.exists`
(404), then the file is served. -/

def download_body (cwd : List String) (disk : List (List String)) (fl : String) :
    DlOutcome :=
  if fl = "" then .notFound "Resume file not found"
  else if !(pyStartswith (renderSegs (resolved_file_path cwd fl))
              (renderSegs (normalize (cwd ++ ["uploads"])))) then
    .forbidden "Access denied"
  else if !(disk.contains (resolved_file_path cwd fl)) then
    .notFound "Resume file not found on disk"
  else
    .file (resolved_file_path cwd fl)

/-- api/resumes.py download_resume.  `disk` is the set of files present on
the filesystem (for `os.path.exists`). -/

def download_resume (db : DB) (cwd : List String) (disk : List (List String))
    (resume_id company_id : Nat) : DlOutcome :=
  match get_resume db resume_id company_id with
  | none => .notFound "Resume file not found"
  | some r =>
    match r.file_location with
    | none => .notFound "Resume file not found"
    | some fl => download_body cwd disk fl

/-- A plain path segment: not empty, `"."`, or `".."`. -/

def GoodSeg (s : String) : Prop := s ≠ "" ∧ s ≠ "." ∧ s ≠ ".."

instance (s : String) : Decidable (GoodSeg s) := by
  unfold GoodSeg; infer_instance

/-- Sample database for C6: candidate 7 is accessible to company 1 through
an application, and resume 1 stores a path-traversal `file_location`. -/

def exDb6 : DB :=
  { DB.empty with
    jobs := [⟨3, 1⟩],
    candidates := [⟨7, "c@x.example", none⟩],
    applications := [⟨11, 3, 7, none⟩],
    resumes := [⟨1, 7, some "../../../etc/passwd"⟩] }

/-- Sample database for C6 witness: same accessible candidate, one resume
with a plain stored filename, one with basename `".."`. -/

def exDb6b : DB :=
  { DB.empty with
    jobs := [⟨3, 1⟩],
    candidates := [⟨7, "c@x.example", none⟩],
    applications := [⟨11, 3, 7, none⟩],
    resumes := [⟨1, 7, some "uploads/cv.pdf"⟩] }

def exDb6c : DB :=
  { DB.empty with
    jobs := [⟨3, 1⟩],
    candidates := [⟨7, "c@x.example", none⟩],
    applications := [⟨11, 3, 7, none⟩],
    resumes := [⟨1, 7, some "uploads/.."⟩] }

/-! ## crud.py — create_interview (two commits)

crud.create_interview scope-checks the application, then `db.add`s the
interview row and `db.commit()`s, and only afterwards adds the interviewer
rows and `db.commit()`s a second time.  The embedding returns the sequence
of committed database states, in order; `new_interview_id` stands for the
autoincrement id of the interview row and `interviewer_id_base` for the
first autoincrement id of the interviewer rows. -/

/-- schemas.InterviewerCreate. -/

structure InterviewerCreate where
  user_id : Nat
deriving Repr, DecidableEq

/-- schemas.InterviewCreate. -/

structure InterviewCreate where
  scheduled_at : Nat
  duration_minutes : Nat
  interview_type : InterviewType
  interviewers : List InterviewerCreate
deriving Repr, DecidableEq

/-- The interview row inserted by the first commit. -/

def interviewRow (iv : InterviewCreate) (application_id new_interview_id : Nat) :
    Interview :=
  ⟨new_interview_id, application_id, iv.scheduled_at, iv.duration_minutes,
    iv.interview_type⟩

/-- The interviewer rows inserted by the second commit, one per entry of
`iv.interviewers`, in order. -/

def interviewerRows (iv : InterviewCreate) (new_interview_id interviewer_id_base : Nat) :
    List Interviewer :=
  iv.interviewers.enum.map fun p =>
    ⟨interviewer_id_base + p.1, new_interview_id, p.2.user_id⟩

/-- crud.create_interview as its sequence of committed states: empty when
the application is out of scope (the function returns None before any
write), otherwise first the state with only the interview row, then the
state that also has the interviewer rows. -/

def create_interview_commits (db : DB) (iv : InterviewCreate)
    (application_id company_id new_interview_id interviewer_id_base : Nat) : List DB :=
  match get_application db application_id company_id with
  | none => []
  | some _ =>
    let db1 := { db with
      interviews := db.interviews ++ [interviewRow iv application_id new_interview_id] }
    let db2 := { db1 with
      interviewers := db1.interviewers
        ++ interviewerRows iv new_interview_id interviewer_id_base }
    [db1, db2]

/-- Sample database for C7: application 1 to job 3 of company 1, and an
interview request carrying one interviewer. -/

def exDb7 : DB :=
  { DB.empty with
    jobs := [⟨3, 1⟩],
    candidates := [⟨7, "c@x.example", none⟩],
    applications := [⟨1, 3, 7, none⟩] }

def exIv7 : InterviewCreate := ⟨100, 60, InterviewType.phone, [⟨5⟩]⟩

/-! ## crud.py — status event creation (append-only histories)

`event_id`/`created_at` stand for the autoincrement id and insertion
timestamp of each new row.  A history is the relationship
`status_history`: the events of the entity, in insertion (creation)
order. -/

/-- schemas.JobStatusEventCreate. -/

structure JobStatusEventCreate where
  status : JobStatus
  reason : Option String
  changed_by_user_id : Nat
deriving Repr, DecidableEq

/-- schemas.ApplicationStatusEventCreate. -/

structure ApplicationStatusEventCreate where
  status : ApplicationStatus
  reason : Option String
  next_action_date : Option Nat
  changed_by_user_id : Nat
deriving Repr, DecidableEq

/-- crud.create_job_status_event: scope-check the job, then insert the
event row; returns the new state and the created row (None on scope
miss, leaving the state untouched). -/

def create_job_status_event (db : DB) (event : JobStatusEventCreate)
    (job_id company_id event_id created_at : Nat) : DB × Option JobStatusEvent :=
  match get_job db job_id company_id with
  | none => (db, none)
  | some _ =>
    let e : JobStatusEvent :=
      ⟨event_id, job_id, event.status, event.changed_by_user_id, event.reason, created_at⟩
    ({ db with job_status_events := db.job_status_events ++ [e] }, some e)

/-- crud.create_application_status_event: scope-check the application
(join through its job), then insert the event row. -/

def create_application_status_event (db : DB) (event : ApplicationStatusEventCreate)
    (application_id company_id event_id created_at : Nat) :
    DB × Option ApplicationStatusEvent :=
  match get_application db application_id company_id with
  | none => (db, none)
  | some _ =>
    let e : ApplicationStatusEvent :=
      ⟨event_id, application_id, event.status, event.changed_by_user_id,
        event.reason, event.next_action_date, created_at⟩
    ({ db with application_status_events := db.application_status_events ++ [e] },
      some e)

/-- The `status_history` relationship of a job: its events in insertion
order. -/

def job_status_history (db : DB) (job_id : Nat) : List JobStatusEvent :=
  db.job_status_events.filter fun e => e.job_id == job_id

/-- The `status_history` relationship of an application. -/

def application_status_history (db : DB) (application_id : Nat) :
    List ApplicationStatusEvent :=
  db.application_status_events.filter fun e => e.application_id == application_id

/-- The current status of a job: the last element of its history. -/

def current_job_status (db : DB) (job_id : Nat) : Option JobStatus :=
  (job_status_history db job_id).getLast?.map fun e => e.status

/-- The current status of an application: the last element of its history. -/

def current_application_status (db : DB) (application_id : Nat) :
    Option ApplicationStatus :=
  (application_status_history db application_id).getLast?.map fun e => e.status

/-- The row created for one (event, id, timestamp) input. -/

def mkJobStatusEvent (p : JobStatusEventCreate × Nat × Nat) (job_id : Nat) :
    JobStatusEvent :=
  ⟨p.2.1, job_id, p.1.status, p.1.changed_by_user_id, p.1.reason, p.2.2⟩

def mkApplicationStatusEvent (p : ApplicationStatusEventCreate × Nat × Nat)
    (application_id : Nat) : ApplicationStatusEvent :=
  ⟨p.2.1, application_id, p.1.status, p.1.changed_by_user_id, p.1.reason,
    p.1.next_action_date, p.2.2⟩

/-- A sequence of POST /jobs/{id}/status calls, in order. -/

def create_job_status_events (db : DB) (job_id company_id : Nat) :
    List (JobStatusEventCreate × Nat × Nat) → DB
  | [] => db
  | p :: rest =>
      create_job_status_events
        (create_job_status_event db p.1 job_id company_id p.2.1 p.2.2).1
        job_id company_id rest

/-- A sequence of POST /applications/{id}/status calls, in order. -/

def create_application_status_events (db : DB) (application_id company_id : Nat) :
    List (ApplicationStatusEventCreate × Nat × Nat) → DB
  | [] => db
  | p :: rest =>
      create_application_status_events
        (create_application_status_event db p.1 application_id company_id
          p.2.1 p.2.2).1
        application_id company_id rest

/-- Sample database for C8: job 1 of company 1 with application 2, empty
histories; two job status events and two application status events are
then created. -/

def exDb8 : DB :=
  { DB.empty with
    jobs := [⟨1, 1⟩],
    candidates := [⟨7, "c@x.example", none⟩],
    applications := [⟨2, 1, 7, none⟩] }

def exJobEvs : List (JobStatusEventCreate × Nat × Nat) :=
  [(⟨JobStatus.opened, none, 4⟩, 1, 10), (⟨JobStatus.closed, some "done", 4⟩, 2, 11)]

def exAppEvs : List (ApplicationStatusEventCreate × Nat × Nat) :=
  [(⟨ApplicationStatus.screening, none, none, 4⟩, 1, 10),
   (⟨ApplicationStatus.hired, none, none, 4⟩, 2, 11)]

/-! ## crud.py — create_application / update_application -/

/-- schemas.ApplicationCreate. -/

structure ApplicationCreate where
  source : Option String
  job_id : Nat
  candidate_id : Nat
deriving Repr, DecidableEq

/-- Replace the first element satisfying `p` — the row the ORM query
fetched and mutates. -/

def updateFirst {α : Type} (l : List α) (p : α → Bool) (f : α → α) : List α :=
  match l with
  | [] => []
  | x :: xs => if p x then f x :: xs else x :: updateFirst xs p f

/-- crud.create_application: resolve the job under the acting company
first; on a miss return the absence value without touching the state,
otherwise insert the row.  `new_application_id` is the autoincrement
id. -/

def create_application (db : DB) (application : ApplicationCreate)
    (company_id new_application_id : Nat) : DB × Option Application :=
  match get_job db application.job_id company_id with
  | none => (db, none)
  | some _ =>
    let row : Application :=
      ⟨new_application_id, application.job_id, application.candidate_id,
        application.source⟩
    ({ db with applications := db.applications ++ [row] }, some row)

/-- The predicate of crud.get_application's query, used to identify the
fetched row. -/

def applicationScopePred (db : DB) (application_id company_id : Nat)
    (a : Application) : Bool :=
  a.application_id == application_id &&
  db.jobs.any fun j => j.job_id == a.job_id && j.company_id == company_id

/-- crud.update_application: fetch the application under the acting
company; if the update changes `job_id`, re-resolve the new job under the
acting company and refuse (absence value, state unchanged) on a miss;
otherwise overwrite the fetched row's fields. -/

def update_application (db : DB) (application_id : Nat)
    (application : ApplicationCreate) (company_id : Nat) :
    DB × Option Application :=
  match get_application db application_id company_id with
  | none => (db, none)
  | some a0 =>
    if application.job_id ≠ a0.job_id ∧
        get_job db application.job_id company_id = none then
      (db, none)
    else
      let a1 : Application :=
        ⟨a0.application_id, application.job_id, application.candidate_id,
          application.source⟩
      let newApps :=
        updateFirst db.applications
          (applicationScopePred db application_id company_id) (fun _ => a1)
      ({ db with applications := newApps }, some a1)

/-- Sample database for C9: jobs 1 (company 1) and 9 (company 2), and an
existing application 5 to job 1. -/

def exDb9 : DB :=
  { DB.empty with
    jobs := [⟨1, 1⟩, ⟨9, 2⟩],
    candidates := [⟨7, "c@x.example", none⟩],
    applications := [⟨5, 1, 7, none⟩] }

/-! ## api/candidates.py — create_candidate (idempotent by email) -/

/-- schemas.CandidateCreate (profile fields other than the email are
irrelevant to the claims). -/

structure CandidateCreate where
  email : String
deriving Repr, DecidableEq

/-- crud.create_candidate: insert the row, stamping `created_by_user_id`
with the acting user's id (`None` for self-registration).
`new_candidate_id` is the autoincrement id. -/

def create_candidate (db : DB) (candidate : CandidateCreate)
    (user_id : Option Nat) (new_candidate_id : Nat) : DB × Candidate :=
  let row : Candidate := ⟨new_candidate_id, candidate.email, user_id⟩
  ({ db with candidates := db.candidates ++ [row] }, row)

/-- api/candidates.py create_candidate: look the email up (the lookup
ignores the company id) and return the pre-existing row if any; otherwise
create the candidate stamped with the acting user. -/

def create_candidate_endpoint (db : DB) (candidate : CandidateCreate)
    (current_user : User) (new_candidate_id : Nat) : DB × Candidate :=
  match get_candidate_by_email db candidate.email current_user.company_id with
  | some c => (db, c)
  | none => create_candidate db candidate (some current_user.user_id) new_candidate_id

/-- Sample database for C10: candidate 7 exists with email `dup@x.example`
and is linked only to company 2 (via an application to company 2's job);
the caller is a user of company 1. -/

def exDb10 : DB :=
  { DB.empty with
    users := [⟨4, some 1, "u@a.example", 1⟩],
    jobs := [⟨9, 2⟩],
    candidates := [⟨7, "dup@x.example", none⟩],
    applications := [⟨5, 9, 7, none⟩] }

/-- Helper: the access check evaluates exactly the inclusive disjunction of
the two spec branches. -/

theorem access_iff (db : DB) (cid comp : Nat) :
    _is_candidate_in_company db cid comp = true ↔
      HasApplicationToCompany db cid comp ∨ CreatedByCompanyUser db cid comp := by
  unfold _is_candidate_in_company HasApplicationToCompany CreatedByCompanyUser
  have hif : ∀ (a b : Bool), (if a then true else b) = (a || b) := by decide
  rw [hif]
  simp only [Bool.or_eq_true, List.any_eq_true, Bool.and_eq_true, beq_iff_eq]
  constructor
  · rintro (⟨c, hc, hcid, a, ha, hac, j, hj, hjid, hjc⟩ | ⟨c, hc, hcid, u, hu, hcu, huc⟩)
    · exact Or.inl ⟨c, hc, hcid, a, ha, hac.trans hcid, j, hj, hjid, hjc⟩
    · exact Or.inr ⟨c, hc, hcid, u, hu, hcu, huc⟩
  · rintro (⟨c, hc, hcid, a, ha, hac, j, hj, hjid, hjc⟩ | ⟨c, hc, hcid, u, hu, hcu, huc⟩)
    · exact Or.inl ⟨c, hc, hcid, a, ha, hac.trans hcid.symm, j, hj, hjid, hjc⟩
    · exact Or.inr ⟨c, hc, hcid, u, hu, hcu, huc⟩

/-- C1: `_is_candidate_in_company` decides exactly the inclusive OR of the
application-join branch and the created-by branch; in particular a
candidate linked to company `A` via an application and created by a user
of company `B` is accessible to both. -/

theorem candidate_access_iff_or (db : DB) (cid comp a b : Nat) :
    (_is_candidate_in_company db cid comp = true ↔
      HasApplicationToCompany db cid comp ∨ CreatedByCompanyUser db cid comp) ∧
    (HasApplicationToCompany db cid a → CreatedByCompanyUser db cid b →
      _is_candidate_in_company db cid a = true ∧
      _is_candidate_in_company db cid b = true) := by
  refine ⟨access_iff db cid comp, fun hva hcb => ?_⟩
  exact ⟨(access_iff db cid a).mpr (Or.inl hva), (access_iff db cid b).mpr (Or.inr hcb)⟩

theorem candidate_access_iff_or_witness :
    _is_candidate_in_company exDb1 7 1 = true ∧
      _is_candidate_in_company exDb1 7 2 = true :=
  (candidate_access_iff_or exDb1 7 1 1 2).2 (by decide) (by decide)

/-! ## C2 — list query vs single lookup asymmetry -/

/-- Helper: `find?` returns the element itself when it is present and is
the unique element satisfying the predicate. -/

theorem find?_eq_of_unique {α : Type} (l : List α) (p : α → Bool) (x : α)
    (hx : x ∈ l) (hpx : p x = true)
    (huniq : ∀ y ∈ l, p y = true → y = x) :
    l.find? p = some x := by
  induction l with
  | nil => cases hx
  | cons hd tl ih =>
      by_cases hphd : p hd = true
      · have : hd = x := huniq hd (List.mem_cons_self hd tl) hphd
        simp [List.find?, hphd, this, hpx]
      · simp only [List.find?, hphd]
        rcases List.mem_cons.mp hx with h | h
        · exact absurd (h ▸ hpx) hphd
        · exact ih h (fun y hy hpy => huniq y (List.mem_cons_of_mem hd hy) hpy)

/-- C2: `get_candidates` lists exactly the candidates reachable through the
application join (when the result fits the page), and a candidate whose
only link to the company is its `created_by` user is missing from the list
even though `get_candidate` returns it. -/

theorem list_candidates_app_branch_only (db : DB) (comp limit : Nat) (c : Candidate)
    (hlen : (db.candidates.filter (appJoinReachable db comp)).length ≤ limit)
    (hidu : ∀ x ∈ db.candidates, x.candidate_id = c.candidate_id → x = c) :
    (∀ x, x ∈ get_candidates db comp 0 limit ↔
        x ∈ db.candidates ∧ appJoinReachable db comp x = true) ∧
    (c ∈ db.candidates → appJoinReachable db comp c = false →
      _is_candidate_in_company db c.candidate_id comp = true →
      c ∉ get_candidates db comp 0 limit ∧
        get_candidate db c.candidate_id comp = some c) := by
  have hset : get_candidates db comp 0 limit
      = db.candidates.filter (appJoinReachable db comp) := by
    unfold get_candidates
    rw [List.drop_zero, List.take_of_length_le hlen]
  constructor
  · intro x
    rw [hset, List.mem_filter]
  · intro hc hnapp hacc
    constructor
    · rw [hset]
      intro hmem
      exact absurd (List.mem_filter.mp hmem).2 (by simp [hnapp])
    · unfold get_candidate
      rw [hacc]
      simp only [if_true]
      exact find?_eq_of_unique _ _ c hc (by simp)
        (fun y hy hpy => hidu y hy (by simpa using hpy))

theorem list_candidates_app_branch_only_witness :
    (⟨7, "c@x.example", some 9⟩ : Candidate) ∉ get_candidates exDb2 1 0 100 ∧
      get_candidate exDb2 7 1 = some ⟨7, "c@x.example", some 9⟩ :=
  (list_candidates_app_branch_only exDb2 1 100 ⟨7, "c@x.example", some 9⟩
    (by decide) (by decide)).2 (by decide) (by decide) (by decide)

/-- Helper: an out-of-scope candidate id fails the access check. -/

theorem access_false_of_not_branches (db : DB) (cid comp : Nat)
    (h : ¬ HasApplicationToCompany db cid comp ∧ ¬ CreatedByCompanyUser db cid comp) :
    _is_candidate_in_company db cid comp = false := by
  cases hb : _is_candidate_in_company db cid comp with
  | false => rfl
  | true =>
      rcases (access_iff db cid comp).mp hb with hv | hv
      · exact absurd hv h.1
      · exact absurd hv h.2

/-- C3: for each scoped single-entity lookup, any id that is absent or
outside the acting company's derived access yields the very same 404
response, and the handlers can only ever fail with that 404 (never 403). -/

theorem scoped_lookup_miss_is_404 (db : DB) (jid cid aid iid rid comp : Nat) :
    ((∀ j ∈ db.jobs, j.job_id = jid → j.company_id ≠ comp) →
      read_job db jid comp = .error ⟨404, "Job not found"⟩) ∧
    ((¬ HasApplicationToCompany db cid comp ∧ ¬ CreatedByCompanyUser db cid comp) →
      read_candidate db cid comp = .error ⟨404, "Candidate not found"⟩) ∧
    ((∀ a ∈ db.applications, a.application_id = aid →
        ∀ j ∈ db.jobs, j.job_id = a.job_id → j.company_id ≠ comp) →
      read_application db aid comp = .error ⟨404, "Application not found"⟩) ∧
    ((∀ i ∈ db.interviews, i.interview_id = iid →
        ∀ a ∈ db.applications, a.application_id = i.application_id →
          ∀ j ∈ db.jobs, j.job_id = a.job_id → j.company_id ≠ comp) →
      read_interview db iid comp = .error ⟨404, "Interview not found"⟩) ∧
    ((∀ r ∈ db.resumes, r.resume_id = rid →
        ¬ HasApplicationToCompany db r.candidate_id comp ∧
        ¬ CreatedByCompanyUser db r.candidate_id comp) →
      read_resume db rid comp = .error ⟨404, "Resume not found"⟩) ∧
    (∀ e, read_job db jid comp = .error e → e = ⟨404, "Job not found"⟩) ∧
    (∀ e, read_candidate db cid comp = .error e → e = ⟨404, "Candidate not found"⟩) ∧
    (∀ e, read_application db aid comp = .error e → e = ⟨404, "Application not found"⟩) ∧
    (∀ e, read_interview db iid comp = .error e → e = ⟨404, "Interview not found"⟩) ∧
    (∀ e, read_resume db rid comp = .error e → e = ⟨404, "Resume not found"⟩) := by
  refine ⟨?_, ?_, ?_, ?_, ?_, ?_, ?_, ?_, ?_, ?_⟩
  · intro h
    have hg : get_job db jid comp = none := by
      apply List.find?_eq_none.mpr
      intro j hj
      simp only [Bool.and_eq_true, beq_iff_eq, not_and]
      intro hjid
      exact h j hj hjid
    simp [read_job, hg]
  · intro h
    have hb := access_false_of_not_branches db cid comp h
    simp [read_candidate, get_candidate, hb]
  · intro h
    have hg : get_application db aid comp = none := by
      apply List.find?_eq_none.mpr
      intro a ha hp
      simp only [Bool.and_eq_true, List.any_eq_true, beq_iff_eq] at hp
      obtain ⟨haid, j, hj, hjid, hjc⟩ := hp
      exact absurd hjc (h a ha haid j hj hjid)
    simp [read_application, hg]
  · intro h
    have hg : get_interview db iid comp = none := by
      apply List.find?_eq_none.mpr
      intro i hi hp
      simp only [Bool.and_eq_true, List.any_eq_true, beq_iff_eq] at hp
      obtain ⟨hiid, a, ha, haid, j, hj, hjid, hjc⟩ := hp
      exact absurd hjc (h i hi hiid a ha haid j hj hjid)
    simp [read_interview, hg]
  · intro h
    have hg : get_resume db rid comp = none := by
      unfold get_resume
      cases hfind : db.resumes.find? fun r => r.resume_id == rid with
      | none => rfl
      | some r =>
          have hmem := List.mem_of_find?_eq_some hfind
          have hrid : r.resume_id = rid := by
            simpa using List.find?_some hfind
          have := access_false_of_not_branches db r.candidate_id comp (h r hmem hrid)
          simp [this]
    simp [read_resume, hg]
  · intro e he
    unfold read_job at he
    cases hg : get_job db jid comp with
    | some x => rw [hg] at he; exact Except.noConfusion he
    | none =>
        rw [hg] at he
        injection he with h
        exact h.symm
  · intro e he
    unfold read_candidate at he
    cases hg : get_candidate db cid comp with
    | some x => rw [hg] at he; exact Except.noConfusion he
    | none =>
        rw [hg] at he
        injection he with h
        exact h.symm
  · intro e he
    unfold read_application at he
    cases hg : get_application db aid comp with
    | some x => rw [hg] at he; exact Except.noConfusion he
    | none =>
        rw [hg] at he
        injection he with h
        exact h.symm
  · intro e he
    unfold read_interview at he
    cases hg : get_interview db iid comp with
    | some x => rw [hg] at he; exact Except.noConfusion he
    | none =>
        rw [hg] at he
        injection he with h
        exact h.symm
  · intro e he
    unfold read_resume at he
    cases hg : get_resume db rid comp with
    | some x => rw [hg] at he; exact Except.noConfusion he
    | none =>
        rw [hg] at he
        injection he with h
        exact h.symm

theorem scoped_lookup_miss_is_404_witness :
    read_job exDb3 5 1 = .error ⟨404, "Job not found"⟩ ∧
    read_candidate exDb3 9 1 = .error ⟨404, "Candidate not found"⟩ ∧
    read_application exDb3 6 1 = .error ⟨404, "Application not found"⟩ ∧
    read_interview exDb3 7 1 = .error ⟨404, "Interview not found"⟩ ∧
    read_resume exDb3 8 1 = .error ⟨404, "Resume not found"⟩ ∧
    read_job exDb3 999 1 = .error ⟨404, "Job not found"⟩ :=
  ⟨(scoped_lookup_miss_is_404 exDb3 5 9 6 7 8 1).1 (by decide),
   (scoped_lookup_miss_is_404 exDb3 5 9 6 7 8 1).2.1 (by decide),
   (scoped_lookup_miss_is_404 exDb3 5 9 6 7 8 1).2.2.1 (by decide),
   (scoped_lookup_miss_is_404 exDb3 5 9 6 7 8 1).2.2.2.1 (by decide),
   (scoped_lookup_miss_is_404 exDb3 5 9 6 7 8 1).2.2.2.2.1 (by decide),
   (scoped_lookup_miss_is_404 exDb3 999 9 6 7 8 1).1 (by decide)⟩

/-- C4: with a validly decoded token, authentication fails with 401 exactly
when the subject's user record is missing or its current company id
differs from the token's tenant claim; otherwise (including the case where
both are null, as for candidate principals) the re-fetched user is
returned. -/

theorem get_current_user_tenant_recheck (db : DB) (email : String)
    (tok_company : Option Nat) :
    (get_user_by_email db email = none →
      get_current_user db (some email) tok_company = .error ⟨401, "Could not validate credentials"⟩) ∧
    (∀ u, get_user_by_email db email = some u → u.company_id ≠ tok_company →
      get_current_user db (some email) tok_company = .error ⟨401, "Could not validate credentials"⟩) ∧
    (∀ u, get_user_by_email db email = some u → u.company_id = tok_company →
      get_current_user db (some email) tok_company = .ok u) := by
  refine ⟨?_, ?_, ?_⟩
  · intro h
    simp [get_current_user, h, credentials_exception]
  · intro u hu hne
    have : (u.company_id == tok_company) = false := by
      simpa using hne
    simp [get_current_user, hu, this, credentials_exception]
  · intro u hu heq
    have : (u.company_id == tok_company) = true := by
      simpa using heq
    simp [get_current_user, hu, this]

theorem get_current_user_tenant_recheck_witness :
    get_current_user exDb4 (some "ghost@co.example") (some 1) = .error ⟨401, "Could not validate credentials"⟩ ∧
    get_current_user exDb4 (some "a@co.example") (some 2) = .error ⟨401, "Could not validate credentials"⟩ ∧
    get_current_user exDb4 (some "a@co.example") (some 1) = .ok ⟨1, some 1, "a@co.example", 1⟩ ∧
    get_current_user exDb4 (some "cand@self.example") none = .ok ⟨2, none, "cand@self.example", 2⟩ :=
  ⟨(get_current_user_tenant_recheck exDb4 "ghost@co.example" (some 1)).1 (by decide),
   (get_current_user_tenant_recheck exDb4 "a@co.example" (some 2)).2.1
     ⟨1, some 1, "a@co.example", 1⟩ (by decide) (by decide),
   (get_current_user_tenant_recheck exDb4 "a@co.example" (some 1)).2.2
     ⟨1, some 1, "a@co.example", 1⟩ (by decide) (by decide),
   (get_current_user_tenant_recheck exDb4 "cand@self.example" none).2.2
     ⟨2, none, "cand@self.example", 2⟩ (by decide) (by decide)⟩

/-- C5 (code bug): a gate configured with a required permission set — as
the spec, the schemas and the test suite assume — does not evaluate the
subset check at all: it hits the missing `permissions` attribute and
raises, yielding neither a 403 nor the principal.  The role-name half of
the gate alone behaves as specified. -/

theorem roleChecker_required_permissions_crashes :
    RoleChecker.call ⟨none, some ["manage_roles"]⟩ ⟨1, some 1, "admin@co.example", 1⟩
        ⟨1, "Administrator"⟩ = GateOutcome.attributeError ∧
    RoleChecker.call ⟨some ["Administrator"], none⟩ ⟨2, some 1, "u@co.example", 2⟩
        ⟨2, "Recruiter"⟩ = GateOutcome.forbidden "Operation not permitted for this role" ∧
    RoleChecker.call ⟨some ["Administrator"], none⟩ ⟨1, some 1, "admin@co.example", 1⟩
        ⟨1, "Administrator"⟩ = GateOutcome.ok ⟨1, some 1, "admin@co.example", 1⟩ := by
  refine ⟨by decide, by decide, by decide⟩

/-- Folding normalisation over plain segments just appends them. -/

theorem foldl_normStep_good (l : List String) (h : ∀ s ∈ l, GoodSeg s) :
    ∀ acc, l.foldl normStep acc = acc ++ l := by
  induction l with
  | nil => intro acc; simp
  | cons s rest ih =>
      intro acc
      have hs : GoodSeg s := h s (List.mem_cons_self s rest)
      have hstep : normStep acc s = acc ++ [s] := by
        unfold normStep
        rw [if_neg (not_or.mpr ⟨hs.1, hs.2.1⟩), if_neg hs.2.2]
      rw [List.foldl_cons, hstep,
        ih (fun t ht => h t (List.mem_cons_of_mem _ ht)) (acc ++ [s])]
      simp

/-- Normalisation fixes a path of plain segments. -/

theorem normalize_good (l : List String) (h : ∀ s ∈ l, GoodSeg s) :
    normalize l = l := by
  unfold normalize
  rw [foldl_normStep_good l h []]
  simp

/-- Normalising one extra segment after a plain path is one `normStep`. -/

theorem normalize_concat (l : List String) (h : ∀ s ∈ l, GoodSeg s) (n : String) :
    normalize (l ++ [n]) = normStep l n := by
  unfold normalize
  rw [List.foldl_append]
  have h0 : List.foldl normStep [] l = l := normalize_good l h
  rw [h0]
  simp [List.foldl]

/-- Rendering distributes over path concatenation. -/

theorem renderSegs_append (a b : List String) :
    renderSegs (a ++ b) = renderSegs a ++ renderSegs b := by
  induction a with
  | nil => simp [renderSegs]
  | cons s rest ih => simp [renderSegs, ih]

/-- A rendered string starts with any of its prefixes. -/

theorem pyStartswith_append_self (x y : List Char) :
    pyStartswith (x ++ y) x = true := by
  unfold pyStartswith
  exact List.isPrefixOf_iff_prefix.mpr (List.prefix_append x y)

/-- A strictly longer rendered string is not a prefix. -/

theorem pyStartswith_drop_false (x y : List Char) (hy : y ≠ []) :
    pyStartswith x (x ++ y) = false := by
  unfold pyStartswith
  cases hb : (x ++ y).isPrefixOf x with
  | false => rfl
  | true =>
      exfalso
      have hp := List.isPrefixOf_iff_prefix.mp hb
      have hlen := hp.length_le
      rw [List.length_append] at hlen
      have : y.length = 0 := by omega
      exact hy (List.length_eq_zero.mp this)

/-- The basename never contains a slash (auxiliary form). -/

theorem basenameAux_no_slash (l acc : List Char) (h : '/' ∉ acc) :
    '/' ∉ basenameAux l acc := by
  induction l generalizing acc with
  | nil => exact h
  | cons c cs ih =>
      unfold basenameAux
      by_cases hc : c = '/'
      · rw [if_pos hc]
        exact ih [] (by simp)
      · rw [if_neg hc]
        refine ih (acc ++ [c]) ?_
        intro hmem
        rcases List.mem_append.mp hmem with h1 | h1
        · exact h h1
        · simp at h1
          exact hc h1.symm

/-- `os.path.basename` yields a single path segment: no `/` occurs in it,
so joining it under the uploads directory adds exactly one segment. -/

theorem basename_no_slash (p : String) : '/' ∉ (basename p).data :=
  basenameAux_no_slash p.data [] (by simp)

/-- C6 counterexample: the stored location contains traversal segments, yet
the endpoint does not reject with 403 — `os.path.basename` reduces the
location to `passwd` and the request falls through to the existence check
(404 here, or serving `uploads/passwd` if such a file existed). -/

theorem download_resume_traversal_not_403 :
    download_resume exDb6 ["srv", "app"] [] 1 1 =
      DlOutcome.notFound "Resume file not found on disk" := by
  decide

/-- C6 (amended): the download endpoint never serves a path outside the
uploads directory — every served path extends `cwd ++ ["uploads"]` — and
it answers 403 only in the corner case where the stored location's
basename is exactly `".."`; general traversal segments are neutralised by
`os.path.basename` instead of being rejected. -/

theorem download_resume_root_confinement (db : DB) (cwd : List String)
    (disk : List (List String)) (rid comp : Nat)
    (hcwd : ∀ s ∈ cwd, GoodSeg s) :
    (∀ p, download_resume db cwd disk rid comp = .file p →
      (cwd ++ ["uploads"]) <+: p) ∧
    (∀ d, download_resume db cwd disk rid comp = .forbidden d →
      ∃ r, get_resume db rid comp = some r ∧
        ∃ fl, r.file_location = some fl ∧ basename fl = "..") := by
  have hgood_up : ∀ s ∈ cwd ++ ["uploads"], GoodSeg s := by
    intro s hs
    rcases List.mem_append.mp hs with h1 | h1
    · exact hcwd s h1
    · simp at h1
      subst h1
      exact ⟨by decide, by decide, by decide⟩
  have hU : normalize (cwd ++ ["uploads"]) = cwd ++ ["uploads"] :=
    normalize_good _ hgood_up
  cases hr : get_resume db rid comp with
  | none =>
      have heq : download_resume db cwd disk rid comp = .notFound "Resume file not found" := by
        unfold download_resume
        rw [hr]
      constructor
      · intro p hp
        rw [heq] at hp
        exact DlOutcome.noConfusion hp
      · intro d hd
        rw [heq] at hd
        exact DlOutcome.noConfusion hd
  | some r =>
      cases hfl : r.file_location with
      | none =>
          have heq : download_resume db cwd disk rid comp = .notFound "Resume file not found" := by
            unfold download_resume
            simp only [hr, hfl]
          constructor
          · intro p hp
            rw [heq] at hp
            exact DlOutcome.noConfusion hp
          · intro d hd
            rw [heq] at hd
            exact DlOutcome.noConfusion hd
      | some fl =>
          have heq : download_resume db cwd disk rid comp = download_body cwd disk fl := by
            unfold download_resume
            simp only [hr, hfl]
          by_cases hfle : fl = ""
          · have heq2 : download_body cwd disk fl = .notFound "Resume file not found" := by
              unfold download_body
              rw [if_pos hfle]
            constructor
            · intro p hp
              rw [heq, heq2] at hp
              exact DlOutcome.noConfusion hp
            · intro d hd
              rw [heq, heq2] at hd
              exact DlOutcome.noConfusion hd
          · have hFP : resolved_file_path cwd fl
                = normStep (cwd ++ ["uploads"]) (basename fl) := by
              unfold resolved_file_path
              rw [hU]
              exact normalize_concat _ hgood_up (basename fl)
            constructor
            · intro p hp
              rw [heq] at hp
              unfold download_body at hp
              rw [if_neg hfle] at hp
              split at hp
              · exact DlOutcome.noConfusion hp
              · rename_i hguard
                split at hp
                · exact DlOutcome.noConfusion hp
                · injection hp with hp'
                  by_cases h1 : basename fl = "" ∨ basename fl = "."
                  · rw [← hp', hFP]
                    unfold normStep
                    rw [if_pos h1]
                  · by_cases h2 : basename fl = ".."
                    · exfalso
                      apply hguard
                      have hres : resolved_file_path cwd fl = cwd := by
                        rw [hFP]
                        unfold normStep
                        rw [if_neg h1, if_pos h2]
                        exact List.dropLast_concat
                      rw [hres, hU, renderSegs_append,
                        pyStartswith_drop_false _ _ (by simp [renderSegs])]
                      rfl
                    · rw [← hp', hFP]
                      unfold normStep
                      rw [if_neg h1, if_neg h2]
                      exact List.prefix_append _ _
            · intro d hd
              rw [heq] at hd
              unfold download_body at hd
              rw [if_neg hfle] at hd
              split at hd
              · rename_i hguard
                by_cases h1 : basename fl = "" ∨ basename fl = "."
                · exfalso
                  have hres : resolved_file_path cwd fl = cwd ++ ["uploads"] := by
                    rw [hFP]
                    unfold normStep
                    rw [if_pos h1]
                  rw [hres, hU] at hguard
                  have hself : pyStartswith (renderSegs (cwd ++ ["uploads"]))
                      (renderSegs (cwd ++ ["uploads"])) = true := by
                    have := pyStartswith_append_self (renderSegs (cwd ++ ["uploads"])) []
                    simpa using this
                  rw [hself] at hguard
                  exact Bool.noConfusion hguard
                · by_cases h2 : basename fl = ".."
                  · exact ⟨r, rfl, fl, hfl, h2⟩
                  · exfalso
                    have hres : resolved_file_path cwd fl
                        = (cwd ++ ["uploads"]) ++ [basename fl] := by
                      rw [hFP]
                      unfold normStep
                      rw [if_neg h1, if_neg h2]
                    rw [hres, hU, renderSegs_append,
                      pyStartswith_append_self] at hguard
                    exact Bool.noConfusion hguard
              · split at hd
                · exact DlOutcome.noConfusion hd
                · exact DlOutcome.noConfusion hd

theorem download_resume_root_confinement_witness :
    ((["srv", "app"] ++ ["uploads"] : List String)
        <+: ["srv", "app", "uploads", "cv.pdf"]) ∧
    (∃ r, get_resume exDb6c 1 1 = some r ∧
      ∃ fl, r.file_location = some fl ∧ basename fl = "..") :=
  ⟨(download_resume_root_confinement exDb6b ["srv", "app"]
      [["srv", "app", "uploads", "cv.pdf"]] 1 1 (by decide)).1
      ["srv", "app", "uploads", "cv.pdf"] (by decide),
   (download_resume_root_confinement exDb6c ["srv", "app"] [] 1 1 (by decide)).2
      "Access denied" (by decide)⟩

/-- C7 counterexample: the first committed state already contains interview
10 but none of its interviewer rows, so the interview row and its
interviewer links are not committed as one transactional unit. -/

theorem create_interview_partial_commit :
    ∃ s ∈ create_interview_commits exDb7 exIv7 1 1 10 20,
      (s.interviews.any fun i => i.interview_id == 10) = true ∧
      (s.interviewers.any fun w => w.interview_id == 10) = false := by
  refine ⟨{ exDb7 with interviews := [interviewRow exIv7 1 10] }, ?_, by decide, by decide⟩
  decide

/-- C7 (amended): create_interview commits in two steps.  Nothing is
committed when the application is out of scope; otherwise the first
committed state holds the interview row but none of its interviewer rows
(`interviewers` is unchanged), and only the second committed state adds
all the interviewer rows. -/

theorem create_interview_two_phase (db : DB) (iv : InterviewCreate)
    (application_id company_id new_interview_id interviewer_id_base : Nat) :
    (get_application db application_id company_id = none →
      create_interview_commits db iv application_id company_id
        new_interview_id interviewer_id_base = []) ∧
    (∀ a, get_application db application_id company_id = some a →
      create_interview_commits db iv application_id company_id
          new_interview_id interviewer_id_base =
        [{ db with interviews :=
            db.interviews ++ [interviewRow iv application_id new_interview_id] },
         { db with
            interviews :=
              db.interviews ++ [interviewRow iv application_id new_interview_id],
            interviewers :=
              db.interviewers
                ++ interviewerRows iv new_interview_id interviewer_id_base }]) := by
  constructor
  · intro h
    unfold create_interview_commits
    rw [h]
  · intro a ha
    unfold create_interview_commits
    rw [ha]

theorem create_interview_two_phase_witness :
    create_interview_commits exDb7 exIv7 1 1 10 20 =
      [{ exDb7 with interviews := [interviewRow exIv7 1 10] },
       { exDb7 with interviews := [interviewRow exIv7 1 10],
                    interviewers := interviewerRows exIv7 10 20 }] :=
  (create_interview_two_phase exDb7 exIv7 1 1 10 20).2 ⟨1, 3, 7, none⟩ (by decide)

/-- Creating a job status event changes only the event table. -/

theorem create_job_status_event_state (db : DB) (ev : JobStatusEventCreate)
    (jid comp eid t : Nat) (j : Job) (hj : get_job db jid comp = some j) :
    (create_job_status_event db ev jid comp eid t).1
      = { db with job_status_events := db.job_status_events
            ++ [⟨eid, jid, ev.status, ev.changed_by_user_id, ev.reason, t⟩] } := by
  unfold create_job_status_event
  rw [hj]

/-- Creating an application status event changes only the event table. -/

theorem create_application_status_event_state (db : DB)
    (ev : ApplicationStatusEventCreate) (aid comp eid t : Nat) (a : Application)
    (ha : get_application db aid comp = some a) :
    (create_application_status_event db ev aid comp eid t).1
      = { db with application_status_events := db.application_status_events
            ++ [⟨eid, aid, ev.status, ev.changed_by_user_id, ev.reason,
                  ev.next_action_date, t⟩] } := by
  unfold create_application_status_event
  rw [ha]

/-- The folded job-event creations append exactly the created rows. -/

theorem create_job_status_events_table (db : DB) (jid comp : Nat) (j : Job)
    (hj : get_job db jid comp = some j)
    (evs : List (JobStatusEventCreate × Nat × Nat)) :
    (create_job_status_events db jid comp evs).job_status_events
      = db.job_status_events ++ evs.map (fun p => mkJobStatusEvent p jid) := by
  induction evs generalizing db with
  | nil => simp [create_job_status_events]
  | cons p rest ih =>
      unfold create_job_status_events
      rw [create_job_status_event_state db p.1 jid comp p.2.1 p.2.2 j hj]
      rw [ih { db with job_status_events := db.job_status_events
          ++ [⟨p.2.1, jid, p.1.status, p.1.changed_by_user_id, p.1.reason, p.2.2⟩] } hj]
      simp [mkJobStatusEvent]

/-- The folded application-event creations append exactly the created
rows. -/

theorem create_application_status_events_table (db : DB) (aid comp : Nat)
    (a : Application) (ha : get_application db aid comp = some a)
    (aevs : List (ApplicationStatusEventCreate × Nat × Nat)) :
    (create_application_status_events db aid comp aevs).application_status_events
      = db.application_status_events
          ++ aevs.map (fun p => mkApplicationStatusEvent p aid) := by
  induction aevs generalizing db with
  | nil => simp [create_application_status_events]
  | cons p rest ih =>
      unfold create_application_status_events
      rw [create_application_status_event_state db p.1 aid comp p.2.1 p.2.2 a ha]
      rw [ih { db with application_status_events := db.application_status_events
          ++ [⟨p.2.1, aid, p.1.status, p.1.changed_by_user_id, p.1.reason,
                p.1.next_action_date, p.2.2⟩] } ha]
      simp [mkApplicationStatusEvent]

/-- Every row created for a job carries that job's id, so the history
filter keeps all of them. -/

theorem filter_mkJobStatusEvent (evs : List (JobStatusEventCreate × Nat × Nat))
    (jid : Nat) :
    (evs.map (fun p => mkJobStatusEvent p jid)).filter (fun e => e.job_id == jid)
      = evs.map (fun p => mkJobStatusEvent p jid) := by
  apply List.filter_eq_self.mpr
  intro e he
  obtain ⟨p, hp, hpe⟩ := List.mem_map.mp he
  rw [← hpe]
  simp [mkJobStatusEvent]

theorem filter_mkApplicationStatusEvent
    (aevs : List (ApplicationStatusEventCreate × Nat × Nat)) (aid : Nat) :
    (aevs.map (fun p => mkApplicationStatusEvent p aid)).filter
        (fun e => e.application_id == aid)
      = aevs.map (fun p => mkApplicationStatusEvent p aid) := by
  apply List.filter_eq_self.mpr
  intro e he
  obtain ⟨p, hp, hpe⟩ := List.mem_map.mp he
  rw [← hpe]
  simp [mkApplicationStatusEvent]

/-- C8: status histories are append-only.  One create appends exactly one
event row after the untouched prior rows; a sequence of N creates yields a
history that is the prior history followed by the N created events in
creation order (length N from an empty history), and the current status is
the status of the last created event. -/

theorem status_history_append_only (db : DB) (jid aid comp : Nat) (j : Job)
    (a : Application)
    (hj : get_job db jid comp = some j)
    (ha : get_application db aid comp = some a)
    (ev : JobStatusEventCreate) (eid t : Nat)
    (aev : ApplicationStatusEventCreate) (aeid t2 : Nat)
    (evs : List (JobStatusEventCreate × Nat × Nat))
    (aevs : List (ApplicationStatusEventCreate × Nat × Nat)) :
    ((create_job_status_event db ev jid comp eid t).1.job_status_events
        = db.job_status_events
            ++ [⟨eid, jid, ev.status, ev.changed_by_user_id, ev.reason, t⟩]) ∧
    (job_status_history (create_job_status_events db jid comp evs) jid
        = job_status_history db jid ++ evs.map (fun p => mkJobStatusEvent p jid)) ∧
    (job_status_history db jid = [] →
      (job_status_history (create_job_status_events db jid comp evs) jid).length
          = evs.length ∧
      current_job_status (create_job_status_events db jid comp evs) jid
          = evs.getLast?.map (fun p => p.1.status)) ∧
    ((create_application_status_event db aev aid comp aeid t2).1.application_status_events
        = db.application_status_events
            ++ [⟨aeid, aid, aev.status, aev.changed_by_user_id, aev.reason,
                  aev.next_action_date, t2⟩]) ∧
    (application_status_history (create_application_status_events db aid comp aevs) aid
        = application_status_history db aid
            ++ aevs.map (fun p => mkApplicationStatusEvent p aid)) ∧
    (application_status_history db aid = [] →
      (application_status_history
          (create_application_status_events db aid comp aevs) aid).length
          = aevs.length ∧
      current_application_status
          (create_application_status_events db aid comp aevs) aid
          = aevs.getLast?.map (fun p => p.1.status)) := by
  have hh : job_status_history (create_job_status_events db jid comp evs) jid
      = job_status_history db jid ++ evs.map (fun p => mkJobStatusEvent p jid) := by
    unfold job_status_history
    rw [create_job_status_events_table db jid comp j hj evs, List.filter_append,
      filter_mkJobStatusEvent]
  have hha : application_status_history
        (create_application_status_events db aid comp aevs) aid
      = application_status_history db aid
          ++ aevs.map (fun p => mkApplicationStatusEvent p aid) := by
    unfold application_status_history
    rw [create_application_status_events_table db aid comp a ha aevs,
      List.filter_append, filter_mkApplicationStatusEvent]
  refine ⟨?_, hh, ?_, ?_, hha, ?_⟩
  · rw [create_job_status_event_state db ev jid comp eid t j hj]
  · intro h0
    constructor
    · rw [hh, h0]
      simp
    · unfold current_job_status
      rw [hh, h0]
      simp only [List.nil_append]
      rw [List.getLast?_map]
      cases evs.getLast? <;> rfl
  · rw [create_application_status_event_state db aev aid comp aeid t2 a ha]
  · intro h0
    constructor
    · rw [hha, h0]
      simp
    · unfold current_application_status
      rw [hha, h0]
      simp only [List.nil_append]
      rw [List.getLast?_map]
      cases aevs.getLast? <;> rfl

theorem status_history_append_only_witness :
    ((job_status_history (create_job_status_events exDb8 1 1 exJobEvs) 1).length = 2 ∧
      current_job_status (create_job_status_events exDb8 1 1 exJobEvs) 1
        = some JobStatus.closed) ∧
    ((application_status_history
        (create_application_status_events exDb8 2 1 exAppEvs) 2).length = 2 ∧
      current_application_status (create_application_status_events exDb8 2 1 exAppEvs) 2
        = some ApplicationStatus.hired) :=
  ⟨(status_history_append_only exDb8 1 2 1 ⟨1, 1⟩ ⟨2, 1, 7, none⟩ (by decide) (by decide)
      ⟨JobStatus.opened, none, 4⟩ 1 10 ⟨ApplicationStatus.screening, none, none, 4⟩ 1 10
      exJobEvs exAppEvs).2.2.1 (by decide),
   (status_history_append_only exDb8 1 2 1 ⟨1, 1⟩ ⟨2, 1, 7, none⟩ (by decide) (by decide)
      ⟨JobStatus.opened, none, 4⟩ 1 10 ⟨ApplicationStatus.screening, none, none, 4⟩ 1 10
      exJobEvs exAppEvs).2.2.2.2.2 (by decide)⟩

/-- C9: an application row always references a job resolvable under the
acting company.  Creation refuses (no state change) when the job does not
resolve and otherwise persists a row carrying that validated job id;
an update that changes `job_id` re-validates the new job and refuses
(no state change) when it does not resolve; any successful update leaves
the row referencing either its unchanged job or a revalidated one. -/

theorem application_job_scope_validated (db : DB) (application : ApplicationCreate)
    (comp nid aid : Nat) :
    (get_job db application.job_id comp = none →
      create_application db application comp nid = (db, none)) ∧
    (∀ j, get_job db application.job_id comp = some j →
      create_application db application comp nid =
        ({ db with applications := db.applications
            ++ [⟨nid, application.job_id, application.candidate_id,
                  application.source⟩] },
          some ⟨nid, application.job_id, application.candidate_id,
            application.source⟩)) ∧
    (get_application db aid comp = none →
      update_application db aid application comp = (db, none)) ∧
    (∀ a0, get_application db aid comp = some a0 →
      application.job_id ≠ a0.job_id →
      get_job db application.job_id comp = none →
      update_application db aid application comp = (db, none)) ∧
    (∀ a0 a1, get_application db aid comp = some a0 →
      (update_application db aid application comp).2 = some a1 →
      a1.job_id = a0.job_id ∨ ∃ j, get_job db a1.job_id comp = some j) := by
  refine ⟨?_, ?_, ?_, ?_, ?_⟩
  · intro h
    unfold create_application
    rw [h]
  · intro j hj
    unfold create_application
    rw [hj]
  · intro h
    unfold update_application
    rw [h]
  · intro a0 ha0 hne hmiss
    unfold update_application
    simp only [ha0]
    rw [if_pos ⟨hne, hmiss⟩]
  · intro a0 a1 ha0 hupd
    unfold update_application at hupd
    simp only [ha0] at hupd
    split at hupd
    · exact Option.noConfusion hupd
    · rename_i hcond
      injection hupd with h1
      rcases Decidable.em (application.job_id = a0.job_id) with he | he
      · left
        rw [← h1]
        exact he
      · right
        cases hg : get_job db application.job_id comp with
        | none => exact absurd ⟨he, hg⟩ hcond
        | some j => exact ⟨j, by rw [← h1]; exact hg⟩

theorem application_job_scope_validated_witness :
    (create_application exDb9 ⟨none, 9, 7⟩ 1 6 = (exDb9, none)) ∧
    (update_application exDb9 5 ⟨none, 9, 7⟩ 1 = (exDb9, none)) ∧
    ((⟨5, 1, 7, some "referral"⟩ : Application).job_id = 1 ∨
      ∃ j, get_job exDb9 (⟨5, 1, 7, some "referral"⟩ : Application).job_id 1 = some j) :=
  ⟨(application_job_scope_validated exDb9 ⟨none, 9, 7⟩ 1 6 5).1 (by decide),
   (application_job_scope_validated exDb9 ⟨none, 9, 7⟩ 1 6 5).2.2.2.1
     ⟨5, 1, 7, none⟩ (by decide) (by decide) (by decide),
   (application_job_scope_validated exDb9 ⟨some "referral", 1, 7⟩ 1 6 5).2.2.2.2
     ⟨5, 1, 7, none⟩ ⟨5, 1, 7, some "referral"⟩ (by decide) (by decide)⟩

/-- C10: posting a candidate whose email already exists returns the
pre-existing row unchanged — no new row, no state change — even when that
row is not accessible to the caller's company (the email lookup ignores
the company id entirely, so out-of-tenant records are disclosed); with a
fresh email a new row stamped with the acting user is inserted. -/

theorem create_candidate_idempotent_by_email (db : DB)
    (candidate : CandidateCreate) (u : User) (nid : Nat) :
    (∀ c0, db.candidates.find? (fun c => c.email == candidate.email) = some c0 →
      create_candidate_endpoint db candidate u nid = (db, c0)) ∧
    (∀ comp comp', get_candidate_by_email db candidate.email comp
        = get_candidate_by_email db candidate.email comp') ∧
    (∀ c0 compB, db.candidates.find? (fun c => c.email == candidate.email) = some c0 →
      u.company_id = some compB →
      _is_candidate_in_company db c0.candidate_id compB = false →
      create_candidate_endpoint db candidate u nid = (db, c0)) ∧
    (db.candidates.find? (fun c => c.email == candidate.email) = none →
      create_candidate_endpoint db candidate u nid =
        ({ db with candidates := db.candidates
            ++ [⟨nid, candidate.email, some u.user_id⟩] },
          ⟨nid, candidate.email, some u.user_id⟩)) := by
  have hfound : ∀ c0, db.candidates.find? (fun c => c.email == candidate.email) = some c0 →
      create_candidate_endpoint db candidate u nid = (db, c0) := by
    intro c0 h
    unfold create_candidate_endpoint get_candidate_by_email
    rw [h]
  refine ⟨hfound, ?_, ?_, ?_⟩
  · intro comp comp'
    unfold get_candidate_by_email
    rfl
  · intro c0 compB h hcomp hnacc
    exact hfound c0 h
  · intro h
    unfold create_candidate_endpoint get_candidate_by_email create_candidate
    rw [h]

theorem create_candidate_idempotent_by_email_witness :
    (create_candidate_endpoint exDb10 ⟨"dup@x.example"⟩ ⟨4, some 1, "u@a.example", 1⟩ 8
      = (exDb10, ⟨7, "dup@x.example", none⟩)) ∧
    (create_candidate_endpoint exDb10 ⟨"new@x.example"⟩ ⟨4, some 1, "u@a.example", 1⟩ 8
      = ({ exDb10 with candidates := exDb10.candidates
            ++ [⟨8, "new@x.example", some 4⟩] },
          ⟨8, "new@x.example", some 4⟩)) :=
  ⟨(create_candidate_idempotent_by_email exDb10 ⟨"dup@x.example"⟩
      ⟨4, some 1, "u@a.example", 1⟩ 8).2.2.1 ⟨7, "dup@x.example", none⟩ 1
      (by decide) (by decide) (by decide),
   (create_candidate_idempotent_by_email exDb10 ⟨"new@x.example"⟩
      ⟨4, some 1, "u@a.example", 1⟩ 8).2.2.2 (by decide)⟩

end Ats
